import Mathlib

/-!
Verification of the script-detector classification engine
(src/script-detector-standalone/src/detector.js).

The JavaScript source is shallowly embedded: each detector function is
translated into an executable Lean definition over `String` / `List Char`,
with the regular expressions of the source hand-compiled into deterministic
scanners (every regex in the source is deterministic: greedy pieces are
always followed by literals that cannot overlap the repeated class, and lazy
pieces run up to a fixed literal).  JavaScript semantics that the source
relies on — string truthiness, `Array.prototype.includes` (SameValueZero),
global-regex `exec` resuming at the end of the previous match — are modelled
explicitly.
-/

namespace ScriptDetector

/-! ## Character and substring utilities -/

/-- The whitespace class of JavaScript regular expressions (`\s`), restricted
to the code points that actually occur in HTML corpora handled by the
detector: ASCII whitespace plus NBSP and the BOM.  (Other Unicode space
separators are omitted; no pattern in the source distinguishes them.) -/
def jsWs (c : Char) : Bool :=
  c == ' ' || c == '\t' || c == '\n' || c == '\r' || c == '\x0b' ||
  c == '\x0c' || c == ' ' || c == '﻿'

/-- ASCII lowering, the case folding used by the `i` regex flag on the ASCII
patterns of the source. -/
def lowerChars (s : List Char) : List Char := s.map Char.toLower

/-- Predicate `isPrefixL pat s`: `pat` is a prefix of `s` (exact characters). -/
def isPrefixL : List Char → List Char → Bool
  | [], _ => true
  | _ :: _, [] => false
  | p :: ps, c :: cs => p == c && isPrefixL ps cs

/-- Predicate `containsL pat s`: `pat` occurs as a contiguous substring of `s`
(the semantics of `RegExp.test` for a literal pattern). -/
def containsL (pat : List Char) : List Char → Bool
  | [] => isPrefixL pat []
  | c :: cs => isPrefixL pat (c :: cs) || containsL pat cs

/-- Case-sensitive substring test on strings (a flagless literal regex). -/
def containsStr (s pat : String) : Bool := containsL pat.data s.data

/-- Case-insensitive substring test on strings (a literal regex with the
`i` flag). -/
def icontainsStr (s pat : String) : Bool :=
  containsL (lowerChars pat.data) (lowerChars s.data)

/-! ## JSON values (the result of `JSON.parse`) -/

/-- JavaScript values produced by `JSON.parse`.  Numbers keep their source
lexeme; their numeric value is only consulted for truthiness and
SameValueZero equality, which are computed from the lexeme. -/
inductive JsVal where
  | jnull : JsVal
  | jbool : Bool → JsVal
  | jnum : String → JsVal
  | jstr : String → JsVal
  | jarr : List JsVal → JsVal
  | jobj : List (String × JsVal) → JsVal

/-- A grammar-valid JSON number lexeme denotes zero iff every digit of its
mantissa (the part before any exponent) is `0`. -/
def numLexemeIsZero (lexeme : String) : Bool :=
  let mantissa := lexeme.data.takeWhile (fun c => c != 'e' && c != 'E')
  mantissa.all (fun c => !c.isDigit || c == '0')

/-- JavaScript truthiness of a parsed JSON value. -/
def jsTruthy : JsVal → Bool
  | .jnull => false
  | .jbool b => b
  | .jnum lexeme => !numLexemeIsZero lexeme
  | .jstr s => !s.isEmpty
  | .jarr _ => true
  | .jobj _ => true

/-! ## Findings structures (the shape of the `result` object) -/

structure GA4Finding where
  found : Bool
  measurementIds : List String
  deriving Repr, DecidableEq

structure GTMFinding where
  found : Bool
  containerIds : List String
  deriving Repr, DecidableEq

structure ClarityFinding where
  found : Bool
  projectId : Option String
  deriving Repr, DecidableEq

structure VerificationFinding where
  found : Bool
  verificationCode : Option String
  deriving Repr, DecidableEq

structure SeoPluginFinding where
  found : Bool
  plugins : List String
  deriving Repr, DecidableEq

structure AnalyticsFindings where
  ga4 : GA4Finding
  gtm : GTMFinding
  microsoftClarity : ClarityFinding
  searchConsole : VerificationFinding
  seoPlugin : SeoPluginFinding
  bingWebmaster : VerificationFinding
  deriving Repr, DecidableEq

structure MarketingFindings where
  crm : List String
  emailMarketing : List String
  adPlatforms : List String
  pixelIds : List String
  conversionTools : List String
  widgets : List String
  deriving Repr, DecidableEq

structure InfrastructureFindings where
  cms : List String
  ecommerce : Option String
  cdn : List String
  hosting : String
  deriving Repr, DecidableEq

structure MetaBasic where
  description : Option String
  robots : Option String
  canonical : Option String
  deriving Repr, DecidableEq

structure MetaTagsResult where
  basic : MetaBasic
  deriving Repr, DecidableEq

structure SeoFindings where
  hasSchema : Bool
  schemaTypes : List (Option JsVal)
  metaTags : MetaTagsResult
  canonical : Option String
  robots : Option String

structure DetectionResult where
  analytics : AnalyticsFindings
  marketing : MarketingFindings
  infrastructure : InfrastructureFindings
  seo : SeoFindings

structure SummaryCategories where
  analytics : Nat
  marketing : Nat
  infrastructure : Nat
  seo : Nat
  deriving Repr, DecidableEq

structure Summary where
  totalToolsFound : Nat
  categories : SummaryCategories
  deriving Repr, DecidableEq

/-- JavaScript truthiness of an optional string field (`undefined`/`null`
and the empty string are falsy). -/
def jsTruthyOptStr : Option String → Bool
  | some s => !s.isEmpty
  | none => false

/-- Source `calculateSummary` (detector.js lines 390–425), translated clause by
clause.  The ternaries `result.infrastructure.ecommerce ? 1 : 0` and
`result.seo.metaTags.basic.description ? 1 : 0` test JavaScript truthiness,
rendered by `jsTruthyOptStr`. -/
def calculateSummary (result : DetectionResult) : Summary :=
  let analyticsCount :=
    (List.filter (fun b => b)
      [result.analytics.ga4.found,
       result.analytics.gtm.found,
       result.analytics.microsoftClarity.found,
       result.analytics.searchConsole.found,
       result.analytics.seoPlugin.found,
       result.analytics.bingWebmaster.found]).length
  let marketingCount :=
    result.marketing.crm.length +
    result.marketing.emailMarketing.length +
    result.marketing.adPlatforms.length +
    result.marketing.conversionTools.length +
    result.marketing.widgets.length
  let infrastructureCount :=
    result.infrastructure.cms.length +
    (if jsTruthyOptStr result.infrastructure.ecommerce then 1 else 0) +
    result.infrastructure.cdn.length
  let seoCount :=
    (if result.seo.hasSchema then 1 else 0) +
    (if jsTruthyOptStr result.seo.metaTags.basic.description then 1 else 0)
  { totalToolsFound := analyticsCount + marketingCount + infrastructureCount + seoCount
    categories :=
      { analytics := analyticsCount
        marketing := marketingCount
        infrastructure := infrastructureCount
        seo := seoCount } }

/-! ## Regex scanning primitives

Each regex of the source is compiled to a scanner built from these pieces.
`exec` with the `g` flag is modelled as: find the leftmost position where the
whole pattern matches, emit the capture, and resume immediately after the end
of the full match (consumed boundary characters included). -/

/-- Consume the literal `lit` from the front of `s`; `ci` selects the
case-insensitive comparison of the `i` flag.  Returns the rest of `s`. -/
def dropLit (ci : Bool) : List Char → List Char → Option (List Char)
  | [], s => some s
  | _ :: _, [] => none
  | p :: ps, c :: cs =>
    if (if ci then p.toLower == c.toLower else p == c) then dropLit ci ps cs
    else none

/-- Lazy `([\s\S]*?)` up to the literal `lit`: split `s` at the first
occurrence of `lit`, returning the text before it and the rest after it. -/
def splitUntilLit (ci : Bool) (lit : List Char) : List Char → Option (List Char × List Char)
  | [] => (dropLit ci lit []).map (fun r => ([], r))
  | c :: cs =>
    match dropLit ci lit (c :: cs) with
    | some rest => some ([], rest)
    | none =>
      match splitUntilLit ci lit cs with
      | some (pre, rest) => some (c :: pre, rest)
      | none => none

/-- The regex character class `["']`. -/
def quoteChar (c : Char) : Bool := c == '"' || c == '\''

/-! ## Content Normalizer (`extractScriptContents`, lines 171–181) -/

/-- One attempt of `<script[^>]*>([\s\S]*?)<\/script>` (flags `gi`) at the
current position: literal `<script`, greedy `[^>]*` up to the first `>`, the
`>`, then the lazy body up to the first `</script>`.  Returns the captured
body and the text after the full match. -/
def matchScriptAt (s : List Char) : Option (List Char × List Char) :=
  match dropLit true "<script".data s with
  | none => none
  | some rest =>
    match rest.dropWhile (fun c => c != '>') with
    | '>' :: rest2 => splitUntilLit true "</script>".data rest2
    | _ => none

/-- The `while (match = scriptPattern.exec(html))` loop: at each position try
`matchScriptAt`; on a match append a space, the body, and a space, and resume
after the match; otherwise slide one character.  `fuel` bounds recursion and
is instantiated with the input length (every step consumes at least one
character). -/
def scanScriptsAux : Nat → List Char → List Char
  | 0, _ => []
  | _ + 1, [] => []
  | fuel + 1, c :: cs =>
    match matchScriptAt (c :: cs) with
    | some (body, after) => ' ' :: (body ++ ' ' :: scanScriptsAux fuel after)
    | none => scanScriptsAux fuel cs

/-- Source `extractScriptContents` (lines 171–181). -/
def extractScriptContents (html : String) : String :=
  String.mk (scanScriptsAux html.data.length html.data)

/-- The corpus built by `runDetectors` (line 136):
`` `${html} ${scriptContents}` ``. -/
def detectorCorpus (html : String) : String :=
  html ++ " " ++ extractScriptContents html

/-- Source `extractPageTitle` (lines 183–186): first match of
`<title>([^<]*)<\/title>` (flag `i`), trimmed. -/
def matchTitleAt (s : List Char) : Option (List Char) :=
  match dropLit true "<title>".data s with
  | none => none
  | some rest =>
    let body := rest.takeWhile (fun c => c != '<')
    match dropLit true "</title>".data (rest.dropWhile (fun c => c != '<')) with
    | some _ => some body
    | none => none

/-- JavaScript `String.prototype.trim` on a character list. -/
def jsTrimChars (s : List Char) : List Char :=
  ((s.dropWhile jsWs).reverse.dropWhile jsWs).reverse

def scanTitleAux : Nat → List Char → Option (List Char)
  | 0, _ => none
  | _ + 1, [] => none
  | fuel + 1, c :: cs =>
    match matchTitleAt (c :: cs) with
    | some body => some body
    | none => scanTitleAux fuel cs

def extractPageTitle (html : String) : Option String :=
  (scanTitleAux (html.data.length + 1) html.data).map
    (fun body => String.mk (jsTrimChars body))

/-! ## GA4 / GTM identifier scanners -/

/-- The class `["'\s,;(]` preceding a GA4 identifier. -/
def ga4PreBoundary (c : Char) : Bool :=
  c == '"' || c == '\'' || jsWs c || c == ',' || c == ';' || c == '('

/-- The class `["'\s,;)]` following a GA4 identifier. -/
def ga4PostBoundary (c : Char) : Bool :=
  c == '"' || c == '\'' || jsWs c || c == ',' || c == ';' || c == ')'

/-- The class `["'\s,;(?]` preceding a GTM identifier. -/
def gtmPreBoundary (c : Char) : Bool := ga4PreBoundary c || c == '?'

/-- The class `["'\s,;)?]` following a GTM identifier. -/
def gtmPostBoundary (c : Char) : Bool := ga4PostBoundary c || c == '?'

/-- The class `[A-Z0-9]` under the `i` flag: ASCII letters and digits. -/
def idAlnum (c : Char) : Bool := c.isAlphanum

/-- Consume the post-boundary alternation `(?:POST|$)`: succeeds at the end of
input, or by consuming one character of the class `post`. -/
def consumePost (post : Char → Bool) : List Char → Option (List Char)
  | [] => some []
  | c :: cs => if post c then some cs else none

/-- Backtracking loop of the greedy `{lo,…}` quantifier: try taking `k`
identifier characters from `rest` (largest first, down to `lo`), requiring the
post-boundary after them.  `k` starts at `min (run length) hi`. -/
def tryIdLens (post : Char → Bool) (lo : Nat) (rest : List Char) :
    Nat → Option (List Char × List Char)
  | 0 => none
  | k + 1 =>
    if k + 1 < lo then none
    else
      match consumePost post (rest.drop (k + 1)) with
      | some after => some (rest.take (k + 1), after)
      | none => tryIdLens post lo rest k

/-- Match the core `PREFIX-[A-Z0-9]{lo,hi}(?:POST|$)` (case-insensitive
prefix, case preserved in the capture).  On success returns
(captured identifier, rest after the full match). -/
def matchBoundedId (idPrefix : List Char) (lo hi : Nat) (post : Char → Bool)
    (s : List Char) : Option (List Char × List Char) :=
  match dropLit true idPrefix s with
  | none => none
  | some rest =>
    let run := rest.takeWhile idAlnum
    match tryIdLens post lo rest (min run.length hi) with
    | some (idTail, after) => some (s.take idPrefix.length ++ idTail, after)
    | none => none

/-- One attempt of `(?:PRE|^)(ID)(?:POST|$)` at the current position.
`atStart` records whether this position is index 0 (where the anchor `^` of
the second alternative can match without consuming a character). -/
def idMatchAt (pre post : Char → Bool) (idPrefix : List Char) (lo hi : Nat)
    (atStart : Bool) (s : List Char) : Option (List Char × List Char) :=
  match s with
  | [] => none
  | c :: cs =>
    if pre c then
      match matchBoundedId idPrefix lo hi post cs with
      | some r => some r
      | none =>
        if atStart then matchBoundedId idPrefix lo hi post (c :: cs) else none
    else if atStart then matchBoundedId idPrefix lo hi post (c :: cs)
    else none

/-- The global `exec` loop collecting every bounded-identifier match, in
order, resuming after each full match. -/
def idScanAux (pre post : Char → Bool) (idPrefix : List Char) (lo hi : Nat) :
    Nat → Bool → List Char → List String
  | 0, _, _ => []
  | _ + 1, _, [] => []
  | fuel + 1, atStart, c :: cs =>
    match idMatchAt pre post idPrefix lo hi atStart (c :: cs) with
    | some (id, after) =>
      String.mk id :: idScanAux pre post idPrefix lo hi fuel false after
    | none => idScanAux pre post idPrefix lo hi fuel false cs

/-- The dedup-push loop `if (!ids.includes(match[1])) ids.push(match[1])`. -/
def dedupPush (raw : List String) : List String :=
  raw.foldl (fun acc id => if acc.contains id then acc else acc ++ [id]) []

/-- The case-sensitive class `[A-Z0-9]`. -/
def ga4UpAlnum (c : Char) : Bool :=
  ('A' ≤ c && c ≤ 'Z') || ('0' ≤ c && c ≤ '9')

/-- Presence test `/G-[A-Z0-9]{8,12}/` — note: no `i` flag, so this one is
case-sensitive ([A-Z0-9] only, literal `G`).  As a presence test only the
lower bound 8 matters. -/
def ga4TokenAt : List Char → Bool
  | c1 :: c2 :: rest =>
    c1 == 'G' && c2 == '-' && decide (8 ≤ (rest.takeWhile ga4UpAlnum).length)
  | _ => false

def hasGA4TokenAux : Nat → List Char → Bool
  | 0, _ => false
  | _ + 1, [] => false
  | fuel + 1, c :: cs => ga4TokenAt (c :: cs) || hasGA4TokenAux fuel cs

def hasGA4Token (s : List Char) : Bool := hasGA4TokenAux (s.length + 1) s

/-- Source `checkGA4` (lines 188–200).  The presence patterns carry no `i` flag;
the identifier pattern
`(?:["'\s,;(]|^)(G-[A-Z0-9]{8,12})(?:["'\s,;)]|$)` carries `gi`. -/
def checkGA4 (content : String) : GA4Finding :=
  let found := containsStr content "googletagmanager.com/gtag/js" ||
               hasGA4Token content.data
  let raw := idScanAux ga4PreBoundary ga4PostBoundary "G-".data 8 12
               (content.data.length + 1) true content.data
  { found := found, measurementIds := dedupPush raw }

/-- Source `checkGTM` (lines 202–213).  Presence pattern
`/googletagmanager\.com\/gtm\.js/` (no flags); identifier pattern
`(?:["'\s,;(?]|^)(GTM-[A-Z0-9]{5,8})(?:["'\s,;)?]|$)` (flags `gi`). -/
def checkGTM (content : String) : GTMFinding :=
  let found := containsStr content "googletagmanager.com/gtm.js"
  let raw := idScanAux gtmPreBoundary gtmPostBoundary "GTM-".data 5 8
               (content.data.length + 1) true content.data
  { found := found, containerIds := dedupPush raw }

/-- The class `[a-z0-9-]` under the `i` flag. -/
def clarityIdChar (c : Char) : Bool := c.isAlphanum || c == '-'

/-- One attempt of `clarity\.ms\/tag\/([a-z0-9-]{6,40})` (flag `i`). The
greedy quantifier is capped at 40 and needs no trailing context, so the
capture is the first ≥6-character run, truncated to 40. -/
def clarityTagAt (s : List Char) : Option (List Char) :=
  match dropLit true "clarity.ms/tag/".data s with
  | none => none
  | some rest =>
    let run := rest.takeWhile clarityIdChar
    if 6 ≤ run.length then some (run.take 40) else none

def clarityScanAux : Nat → List Char → Option (List Char)
  | 0, _ => none
  | _ + 1, [] => none
  | fuel + 1, c :: cs =>
    match clarityTagAt (c :: cs) with
    | some r => some r
    | none => clarityScanAux fuel cs

/-- Source `checkMicrosoftClarity` (lines 215–219).  The presence pattern
`/clarity\.ms/` has no `i` flag (case-sensitive); the project-id pattern
has the `i` flag. -/
def checkMicrosoftClarity (content : String) : ClarityFinding :=
  let found := containsStr content "clarity.ms"
  let idMatch := clarityScanAux (content.data.length + 1) content.data
  { found := found, projectId := idMatch.map String.mk }

/-! ## Meta-tag and phrase matchers -/

/-- One attempt of the shared meta/link shape
`TAG\s+ATTR1=["']NAME["']\s+ATTR2=["'](CAPTURE…)` (flag `i`) at the current
position.  With `reqClose = true` the capture is `([^"']+)` followed by a
closing `["']` (the verification-code patterns); with `reqClose = false` it is
`([^"']*)` with no closing context (the description/robots/canonical
patterns). -/
def matchAttrTagAt (tagLit a1 nm a2 : List Char) (reqClose : Bool)
    (s : List Char) : Option (List Char) :=
  match dropLit true tagLit s with
  | none => none
  | some r1 =>
    match r1 with
    | [] => none
    | c :: _ =>
      if !jsWs c then none
      else
        match dropLit true a1 (r1.dropWhile jsWs) with
        | none => none
        | some r2 =>
          match r2 with
          | [] => none
          | q1 :: r3 =>
            if !quoteChar q1 then none
            else
              match dropLit true nm r3 with
              | none => none
              | some r4 =>
                match r4 with
                | [] => none
                | q2 :: r5 =>
                  if !quoteChar q2 then none
                  else
                    match r5 with
                    | [] => none
                    | c2 :: _ =>
                      if !jsWs c2 then none
                      else
                        match dropLit true a2 (r5.dropWhile jsWs) with
                        | none => none
                        | some r6 =>
                          match r6 with
                          | [] => none
                          | q3 :: r7 =>
                            if !quoteChar q3 then none
                            else
                              let run := r7.takeWhile (fun c => !quoteChar c)
                              if reqClose then
                                if 0 < run.length &&
                                   (match r7.drop run.length with
                                    | q :: _ => quoteChar q
                                    | [] => false) then some run
                                else none
                              else some run

def scanAttrTagAux (tagLit a1 nm a2 : List Char) (reqClose : Bool) :
    Nat → List Char → Option (List Char)
  | 0, _ => none
  | _ + 1, [] => none
  | fuel + 1, c :: cs =>
    match matchAttrTagAt tagLit a1 nm a2 reqClose (c :: cs) with
    | some r => some r
    | none => scanAttrTagAux tagLit a1 nm a2 reqClose fuel cs

/-- First match (`String.prototype.match` without the `g` flag) of the shared
attribute-tag shape over the whole input. -/
def findAttrTag (tagLit a1 nm a2 : String) (reqClose : Bool) (html : String) :
    Option String :=
  (scanAttrTagAux tagLit.data a1.data nm.data a2.data reqClose
    (html.data.length + 1) html.data).map String.mk

/-- Source `checkSearchConsole` (lines 221–224):
`<meta\s+name=["']google-site-verification["']\s+content=["']([^"']+)["']`. -/
def checkSearchConsole (html : String) : VerificationFinding :=
  let m := findAttrTag "<meta" "name=" "google-site-verification" "content=" true html
  { found := m.isSome, verificationCode := m }

/-- Source `checkBingWebmaster` (lines 234–237):
`<meta\s+name=["']msvalidate\.01["']\s+content=["']([^"']+)["']`. -/
def checkBingWebmaster (html : String) : VerificationFinding :=
  let m := findAttrTag "<meta" "name=" "msvalidate.01" "content=" true html
  { found := m.isSome, verificationCode := m }

/-- Match a sequence of literal words separated by `\s+` (flag `i`) at the
current position (e.g. `yoast\s+seo`, `all\s+in\s+one\s+seo`). -/
def matchPhraseAt : List (List Char) → List Char → Bool
  | [], _ => true
  | [w], s => (dropLit true w s).isSome
  | w :: ws, s =>
    match dropLit true w s with
    | some (c :: cs) => jsWs c && matchPhraseAt ws ((c :: cs).dropWhile jsWs)
    | _ => false

def hasPhraseAux (ws : List (List Char)) : Nat → List Char → Bool
  | 0, _ => false
  | _ + 1, [] => matchPhraseAt ws []
  | fuel + 1, c :: cs => matchPhraseAt ws (c :: cs) || hasPhraseAux ws fuel cs

/-- Test `RegExp.test` for a `\s+`-separated word phrase (flag `i`). -/
def hasPhrase (ws : List String) (s : String) : Bool :=
  hasPhraseAux (ws.map String.data) (s.data.length + 1) s.data

/-- Literal followed by `\s*\(` (flag `i`), e.g. `fbq\s*\(`. -/
def litWsParenAt (lit : List Char) (s : List Char) : Bool :=
  match dropLit true lit s with
  | some r =>
    match r.dropWhile jsWs with
    | '(' :: _ => true
    | _ => false
  | none => false

def hasLitWsParenAux (lit : List Char) : Nat → List Char → Bool
  | 0, _ => false
  | _ + 1, [] => false
  | fuel + 1, c :: cs => litWsParenAt lit (c :: cs) || hasLitWsParenAux lit fuel cs

def hasLitWsParen (lit : String) (s : String) : Bool :=
  hasLitWsParenAux lit.data (s.data.length + 1) s.data

/-- Source `checkSEOPlugins` (lines 226–232). -/
def checkSEOPlugins (html : String) : SeoPluginFinding :=
  let plugins :=
    (if icontainsStr html "yoast.com" || hasPhrase ["yoast", "seo"] html
     then ["Yoast SEO"] else []) ++
    (if icontainsStr html "rankmath" then ["Rank Math SEO"] else []) ++
    (if hasPhrase ["all", "in", "one", "seo"] html || icontainsStr html "aioseo"
     then ["All in One SEO"] else [])
  { found := decide (0 < plugins.length), plugins := plugins }

/-! ## List-valued marketing / infrastructure detectors

Each `if (/a|b/gi.test(content)) list.push(name)` chain is rendered as the
concatenation of its conditional singletons, in declaration order — the same
list the sequential pushes build. -/

/-- Source `checkCRMPlatforms` (lines 239–247). -/
def checkCRMPlatforms (content : String) : List String :=
  (if icontainsStr content "hs-scripts.com" || icontainsStr content "hsappstatic.net" ||
      icontainsStr content "hubspot" then ["HubSpot"] else []) ++
  (if icontainsStr content "salesforce.com" || icontainsStr content "pardot.com"
   then ["Salesforce"] else []) ++
  (if icontainsStr content "marketo.net" || icontainsStr content "mktoForms"
   then ["Marketo"] else []) ++
  (if icontainsStr content "pipedrive.com" then ["Pipedrive"] else []) ++
  (if icontainsStr content "zoho.com" || icontainsStr content "zohostatic.com"
   then ["Zoho CRM"] else [])

/-- Source `checkEmailMarketingTools` (lines 249–258). -/
def checkEmailMarketingTools (content : String) : List String :=
  (if icontainsStr content "list-manage.com" || icontainsStr content "mailchimp.com"
   then ["Mailchimp"] else []) ++
  (if icontainsStr content "klaviyo.com" then ["Klaviyo"] else []) ++
  (if icontainsStr content "activecampaign.com" then ["ActiveCampaign"] else []) ++
  (if icontainsStr content "constantcontact.com" then ["Constant Contact"] else []) ++
  (if icontainsStr content "convertkit.com" then ["ConvertKit"] else []) ++
  (if icontainsStr content "sendinblue.com" || icontainsStr content "brevo.com"
   then ["Brevo/Sendinblue"] else [])

/-- One attempt of the Facebook pixel-id pattern
`fbq\s*\(\s*['"]init['"]\s*,\s*['"](\d+)['"]\s*\)` (flags `gi`). -/
def matchFbqInitAt (s : List Char) : Option (List Char × List Char) :=
  match dropLit true "fbq".data s with
  | none => none
  | some r1 =>
    match r1.dropWhile jsWs with
    | '(' :: r2 =>
      match r2.dropWhile jsWs with
      | q1 :: r3 =>
        if !quoteChar q1 then none
        else
          match dropLit true "init".data r3 with
          | none => none
          | some (q2 :: r4) =>
            if !quoteChar q2 then none
            else
              match r4.dropWhile jsWs with
              | ',' :: r5 =>
                match r5.dropWhile jsWs with
                | q3 :: r6 =>
                  if !quoteChar q3 then none
                  else
                    let digits := r6.takeWhile Char.isDigit
                    if digits.isEmpty then none
                    else
                      match r6.drop digits.length with
                      | q4 :: r7 =>
                        if !quoteChar q4 then none
                        else
                          match r7.dropWhile jsWs with
                          | ')' :: r8 => some (digits, r8)
                          | _ => none
                      | [] => none
                | [] => none
              | _ => none
          | some [] => none
      | [] => none
    | _ => none

def fbqScanAux : Nat → List Char → List String
  | 0, _ => []
  | _ + 1, [] => []
  | fuel + 1, c :: cs =>
    match matchFbqInitAt (c :: cs) with
    | some (digits, after) =>
      ("Facebook: " ++ String.mk digits) :: fbqScanAux fuel after
    | none => fbqScanAux fuel cs

structure AdPlatformsResult where
  platforms : List String
  pixelIds : List String
  deriving Repr, DecidableEq

/-- Source `checkAdPlatforms` (lines 260–281).  Note: the extracted pixel ids are
pushed without any deduplication. -/
def checkAdPlatforms (content : String) : AdPlatformsResult :=
  let platforms :=
    (if icontainsStr content "googleadservices.com" ||
        icontainsStr content "google_conversion" then ["Google Ads"] else []) ++
    (if icontainsStr content "facebook.com/tr" || icontainsStr content "fbevents.js" ||
        hasLitWsParen "fbq" content then ["Facebook/Meta Pixel"] else []) ++
    (if icontainsStr content "snap.licdn.com" || icontainsStr content "linkedin.com/px"
     then ["LinkedIn Insight Tag"] else []) ++
    (if icontainsStr content "analytics.tiktok.com" || icontainsStr content "ttq.load"
     then ["TikTok Pixel"] else []) ++
    (if icontainsStr content "static.ads-twitter.com" || hasLitWsParen "twq" content
     then ["Twitter/X Pixel"] else []) ++
    (if icontainsStr content "pintrk" || icontainsStr content "ct.pinterest.com"
     then ["Pinterest Tag"] else []) ++
    (if icontainsStr content "sc-static.net" || icontainsStr content "snaptr"
     then ["Snapchat Pixel"] else []) ++
    (if icontainsStr content "reddit.com/pixel" || hasLitWsParen "rdt" content
     then ["Reddit Pixel"] else [])
  { platforms := platforms
    pixelIds := fbqScanAux (content.data.length + 1) content.data }

/-- Source `checkConversionOptimizationTools` (lines 283–294). -/
def checkConversionOptimizationTools (content : String) : List String :=
  (if icontainsStr content "static.hotjar.com" || icontainsStr content "hotjar.js"
   then ["Hotjar"] else []) ++
  (if icontainsStr content "optimizely.com" then ["Optimizely"] else []) ++
  (if icontainsStr content "visualwebsiteoptimizer.com" || icontainsStr content "vwo.com"
   then ["VWO"] else []) ++
  (if icontainsStr content "crazyegg.com" then ["Crazy Egg"] else []) ++
  (if icontainsStr content "mouseflow.com" then ["Mouseflow"] else []) ++
  (if icontainsStr content "fullstory.com" then ["FullStory"] else []) ++
  (if icontainsStr content "luckyorange.com" then ["Lucky Orange"] else []) ++
  (if icontainsStr content "cdn.segment.com" then ["Segment"] else [])

/-- Source `checkWidgets` (lines 296–307). -/
def checkWidgets (content : String) : List String :=
  (if icontainsStr content "intercom.io" || icontainsStr content "intercomcdn.com"
   then ["Intercom"] else []) ++
  (if icontainsStr content "zendesk.com" || icontainsStr content "zdassets.com"
   then ["Zendesk Chat"] else []) ++
  (if icontainsStr content "drift.com" || icontainsStr content "js.driftt.com"
   then ["Drift"] else []) ++
  (if icontainsStr content "tawk.to" then ["Tawk.to"] else []) ++
  (if icontainsStr content "livechatinc.com" then ["LiveChat"] else []) ++
  (if icontainsStr content "crisp.chat" then ["Crisp"] else []) ++
  (if icontainsStr content "calendly.com" then ["Calendly"] else []) ++
  (if icontainsStr content "typeform.com" then ["Typeform"] else [])

/-- Source `checkCMS` (lines 309–317); the Drupal rule runs on the raw html, the
others on the combined corpus. -/
def checkCMS (combined html : String) : List String :=
  (if icontainsStr combined "wp-content/" || icontainsStr combined "wp-includes/"
   then ["WordPress"] else []) ++
  (if icontainsStr combined "webflow.js" || icontainsStr combined "webflow.io"
   then ["Webflow"] else []) ++
  (if icontainsStr combined "squarespace.com" || icontainsStr combined "squarespace-cdn.com"
   then ["Squarespace"] else []) ++
  (if icontainsStr combined "wix.com" || icontainsStr combined "wixstatic.com"
   then ["Wix"] else []) ++
  (if icontainsStr html "drupal-settings-json" || icontainsStr html "drupalSettings"
   then ["Drupal"] else [])

/-- Source `checkEcommercePlatforms` (lines 319–325): an ordered decision list whose
first matching rule wins; `null` (here `none`) when no rule matches.  The
`html` parameter of the source is unused there too. -/
def checkEcommercePlatforms (combined _html : String) : Option String :=
  if icontainsStr combined "cdn.shopify.com" || icontainsStr combined "myshopify.com"
  then some "Shopify"
  else if icontainsStr combined "woocommerce" then some "WooCommerce"
  else if icontainsStr combined "magento" then some "Magento"
  else if icontainsStr combined "bigcommerce.com" then some "BigCommerce"
  else none

/-! ## Headers: `JSON.stringify`, CDN, hosting -/

def hexDigitChar (n : Nat) : Char :=
  if n < 10 then Char.ofNat ('0'.toNat + n) else Char.ofNat ('a'.toNat + n - 10)

/-- Escaping of `JSON.stringify` for of one character inside a string. -/
def escapeJsonChar (c : Char) : List Char :=
  if c == '"' then ['\\', '"']
  else if c == '\\' then ['\\', '\\']
  else if c == '\x08' then ['\\', 'b']
  else if c == '\x0c' then ['\\', 'f']
  else if c == '\n' then ['\\', 'n']
  else if c == '\r' then ['\\', 'r']
  else if c == '\t' then ['\\', 't']
  else if c.toNat < 0x20 then
    ['\\', 'u', hexDigitChar (c.toNat / 4096 % 16), hexDigitChar (c.toNat / 256 % 16),
     hexDigitChar (c.toNat / 16 % 16), hexDigitChar (c.toNat % 16)]
  else [c]

def jsonQuote (s : String) : List Char :=
  '"' :: (s.data.map escapeJsonChar).flatten ++ ['"']

/-- Rendering `JSON.stringify(headers)` for a string-valued header object, in insertion
order. -/
def stringifyHeaders (headers : List (String × String)) : String :=
  String.mk
    ('{' ::
      List.intercalate [',']
        (headers.map (fun kv => jsonQuote kv.1 ++ ':' :: jsonQuote kv.2)) ++
      ['}'])

/-- Source `checkCDNProviders` (lines 327–337): the corpus and a stringified header
mapping are searched together. -/
def checkCDNProviders (combined : String) (headers : List (String × String)) :
    List String :=
  let searchContent := combined ++ " " ++ stringifyHeaders headers
  (if icontainsStr searchContent "cloudflare.com" || icontainsStr searchContent "cf-ray"
   then ["Cloudflare"] else []) ++
  (if icontainsStr searchContent "cloudfront.net" then ["Amazon CloudFront"] else []) ++
  (if icontainsStr searchContent "fastly.net" then ["Fastly"] else []) ++
  (if icontainsStr searchContent "akamai.net" then ["Akamai"] else [])

/-- Header-object lookup.  `Object.fromEntries` keeps one value per key, so
the model assumes distinct keys and reads the first binding. -/
def getHeader (headers : List (String × String)) (k : String) : Option String :=
  headers.lookup k

def toLowerStr (s : String) : String := String.mk (lowerChars s.data)

/-- ASCII uppercasing of a whole string (used to state case-sensitivity
facts about corpora). -/
def toUpperStr (s : String) : String := String.mk (s.data.map Char.toUpper)

/-- Source `detectHostingFromHeaders` (lines 339–353): an ordered decision list over
specific header keys; the `domain` parameter is unused in the source as
well. -/
def detectHostingFromHeaders (headers : List (String × String))
    (_domain : String) : String :=
  let serverHeader := toLowerStr ((getHeader headers "server").getD "")
  if jsTruthyOptStr (getHeader headers "cf-ray") then "Cloudflare"
  else if jsTruthyOptStr (getHeader headers "x-vercel-id") then "Vercel"
  else if jsTruthyOptStr (getHeader headers "x-nf-request-id") then "Netlify"
  else if jsTruthyOptStr (getHeader headers "x-github-request") then "GitHub Pages"
  else if containsStr serverHeader "nginx" then "Nginx"
  else if containsStr serverHeader "apache" then "Apache"
  else "Unknown"

/-! ## JSON parsing (`JSON.parse`)

A strict ECMA-404 parser.  Fuel-indexed recursion; the fuel supplied by
`jsonParseChars` (twice the input length plus slack) always suffices, since
every two recursive steps consume at least one character.  Two modelling
notes: escaped lone surrogates collapse to `U+0000` (Lean characters are
Unicode scalar values), and numbers keep their lexeme instead of a float —
neither path is reachable from the detector's observable behaviour except
through truthiness and SameValueZero equality, which are computed exactly
from the lexeme. -/

def jsonWsChar (c : Char) : Bool := c == ' ' || c == '\t' || c == '\n' || c == '\r'

def skipJsonWs (s : List Char) : List Char := s.dropWhile jsonWsChar

def isHexDigitChar (c : Char) : Bool :=
  c.isDigit || ('a' ≤ c && c ≤ 'f') || ('A' ≤ c && c ≤ 'F')

def hexCharVal (c : Char) : Nat :=
  if c.isDigit then c.toNat - '0'.toNat
  else if 'a' ≤ c && c ≤ 'f' then c.toNat - 'a'.toNat + 10
  else c.toNat - 'A'.toNat + 10

def hex4Val (a b c d : Char) : Nat :=
  ((hexCharVal a * 16 + hexCharVal b) * 16 + hexCharVal c) * 16 + hexCharVal d

/-- JSON string body after the opening quote; returns the decoded characters
and the rest after the closing quote. -/
def parseJStringAux : Nat → List Char → Option (List Char × List Char)
  | 0, _ => none
  | _ + 1, [] => none
  | fuel + 1, c :: cs =>
    if c == '"' then some ([], cs)
    else if c == '\\' then
      match cs with
      | [] => none
      | e :: cs2 =>
        if e == '"' || e == '\\' || e == '/' then
          (parseJStringAux fuel cs2).map (fun p => (e :: p.1, p.2))
        else if e == 'b' then
          (parseJStringAux fuel cs2).map (fun p => ('\x08' :: p.1, p.2))
        else if e == 'f' then
          (parseJStringAux fuel cs2).map (fun p => ('\x0c' :: p.1, p.2))
        else if e == 'n' then
          (parseJStringAux fuel cs2).map (fun p => ('\n' :: p.1, p.2))
        else if e == 'r' then
          (parseJStringAux fuel cs2).map (fun p => ('\r' :: p.1, p.2))
        else if e == 't' then
          (parseJStringAux fuel cs2).map (fun p => ('\t' :: p.1, p.2))
        else if e == 'u' then
          match cs2 with
          | h1 :: h2 :: h3 :: h4 :: cs3 =>
            if isHexDigitChar h1 && isHexDigitChar h2 && isHexDigitChar h3 &&
               isHexDigitChar h4 then
              let n := hex4Val h1 h2 h3 h4
              if 0xD800 ≤ n && n ≤ 0xDBFF then
                match cs3 with
                | '\\' :: 'u' :: l1 :: l2 :: l3 :: l4 :: cs4 =>
                  if isHexDigitChar l1 && isHexDigitChar l2 && isHexDigitChar l3 &&
                     isHexDigitChar l4 then
                    let m := hex4Val l1 l2 l3 l4
                    if 0xDC00 ≤ m && m ≤ 0xDFFF then
                      (parseJStringAux fuel cs4).map (fun p =>
                        (Char.ofNat (0x10000 + (n - 0xD800) * 0x400 + (m - 0xDC00)) ::
                          p.1, p.2))
                    else
                      (parseJStringAux fuel cs3).map (fun p =>
                        (Char.ofNat n :: p.1, p.2))
                  else
                    (parseJStringAux fuel cs3).map (fun p => (Char.ofNat n :: p.1, p.2))
                | _ =>
                  (parseJStringAux fuel cs3).map (fun p => (Char.ofNat n :: p.1, p.2))
              else
                (parseJStringAux fuel cs3).map (fun p => (Char.ofNat n :: p.1, p.2))
            else none
          | _ => none
        else none
    else if c.toNat < 0x20 then none
    else (parseJStringAux fuel cs).map (fun p => (c :: p.1, p.2))

/-- Optional exponent part of a JSON number, appended to `lex`. -/
def parseJNumExp (lex : List Char) (s : List Char) : Option (List Char × List Char) :=
  match s with
  | e :: rest =>
    if e == 'e' || e == 'E' then
      let (es, rest1) : List Char × List Char :=
        match rest with
        | c :: u => if c == '+' || c == '-' then ([c], u) else ([], rest)
        | [] => ([], [])
      let ds := rest1.takeWhile Char.isDigit
      if ds.isEmpty then none
      else some (lex ++ e :: es ++ ds, rest1.dropWhile Char.isDigit)
    else some (lex, s)
  | [] => some (lex, [])

/-- JSON number: `-?(0|[1-9][0-9]*)(\.[0-9]+)?([eE][+-]?[0-9]+)?`, returned
as its lexeme. -/
def parseJNum (s : List Char) : Option (List Char × List Char) :=
  let (sgn, s1) : List Char × List Char :=
    match s with
    | '-' :: t => (['-'], t)
    | _ => ([], s)
  match s1 with
  | [] => none
  | c :: t =>
    if !c.isDigit then none
    else
      let (ipart, s2) : List Char × List Char :=
        if c == '0' then (['0'], t)
        else (s1.takeWhile Char.isDigit, s1.dropWhile Char.isDigit)
      match s2 with
      | '.' :: u =>
        let ds := u.takeWhile Char.isDigit
        if ds.isEmpty then none
        else parseJNumExp (sgn ++ ipart ++ '.' :: ds) (u.dropWhile Char.isDigit)
      | _ => parseJNumExp (sgn ++ ipart) s2

mutual

def parseJVal : Nat → List Char → Option (JsVal × List Char)
  | 0, _ => none
  | fuel + 1, s0 =>
    match skipJsonWs s0 with
    | [] => none
    | c :: cs =>
      if c == '{' then
        match skipJsonWs cs with
        | '}' :: rest => some (.jobj [], rest)
        | s1 => (parseJMembers fuel s1).map (fun p => (.jobj p.1, p.2))
      else if c == '[' then
        match skipJsonWs cs with
        | ']' :: rest => some (.jarr [], rest)
        | s1 => (parseJElems fuel s1).map (fun p => (.jarr p.1, p.2))
      else if c == '"' then
        (parseJStringAux (cs.length + 1) cs).map (fun p => (.jstr (String.mk p.1), p.2))
      else if c == 't' then
        (dropLit false "true".data (c :: cs)).map (fun r => (.jbool true, r))
      else if c == 'f' then
        (dropLit false "false".data (c :: cs)).map (fun r => (.jbool false, r))
      else if c == 'n' then
        (dropLit false "null".data (c :: cs)).map (fun r => (.jnull, r))
      else
        (parseJNum (c :: cs)).map (fun p => (.jnum (String.mk p.1), p.2))

def parseJElems : Nat → List Char → Option (List JsVal × List Char)
  | 0, _ => none
  | fuel + 1, s =>
    match parseJVal fuel s with
    | none => none
    | some (v, r) =>
      match skipJsonWs r with
      | ',' :: r2 => (parseJElems fuel r2).map (fun p => (v :: p.1, p.2))
      | ']' :: r2 => some ([v], r2)
      | _ => none

def parseJMembers : Nat → List Char → Option (List (String × JsVal) × List Char)
  | 0, _ => none
  | fuel + 1, s =>
    match skipJsonWs s with
    | '"' :: cs =>
      match parseJStringAux (cs.length + 1) cs with
      | none => none
      | some (k, r) =>
        match skipJsonWs r with
        | ':' :: r2 =>
          match parseJVal fuel r2 with
          | none => none
          | some (v, r3) =>
            match skipJsonWs r3 with
            | ',' :: r4 =>
              (parseJMembers fuel r4).map (fun p => ((String.mk k, v) :: p.1, p.2))
            | '}' :: r4 => some ([(String.mk k, v)], r4)
            | _ => none
        | _ => none
    | _ => none

end

/-- Model of `JSON.parse`: a complete parse of the whole input (trailing JSON
whitespace allowed), or failure. -/
def jsonParseChars (s : List Char) : Option JsVal :=
  match parseJVal (2 * s.length + 8) s with
  | some (v, rest) => if (skipJsonWs rest).isEmpty then some v else none
  | none => none

/-! ## SameValueZero (`Array.prototype.includes`) on collected `@type` values -/

def digitsToNat (ds : List Char) : Nat :=
  ds.foldl (fun n c => n * 10 + (c.toNat - '0'.toNat)) 0

/-- Decompose a JSON number lexeme into a signed mantissa (integer and
fraction digits concatenated) and a decimal exponent. -/
def numParts (lex : String) : Int × Int :=
  let s := lex.data
  let (neg, s1) : Bool × List Char :=
    match s with
    | '-' :: t => (true, t)
    | _ => (false, s)
  let ip := s1.takeWhile Char.isDigit
  let r1 := s1.dropWhile Char.isDigit
  let (fp, r2) : List Char × List Char :=
    match r1 with
    | '.' :: u => (u.takeWhile Char.isDigit, u.dropWhile Char.isDigit)
    | _ => ([], r1)
  let ex : Int :=
    match r2 with
    | _ :: u =>
      match u with
      | '+' :: w => (digitsToNat (w.takeWhile Char.isDigit) : Int)
      | '-' :: w => -(digitsToNat (w.takeWhile Char.isDigit) : Int)
      | _ => (digitsToNat (u.takeWhile Char.isDigit) : Int)
    | [] => 0
  let m : Nat := digitsToNat (ip ++ fp)
  ((if neg then -(m : Int) else (m : Int)), ex - fp.length)

def stripTens : Nat → Int × Int → Int × Int
  | 0, p => p
  | fuel + 1, (m, e) => if m ≠ 0 && m % 10 == 0 then stripTens fuel (m / 10, e + 1) else (m, e)

/-- Canonical (mantissa, exponent) form of a JSON number lexeme; two lexemes
denote the same number iff their canonical forms agree. -/
def canonNum (lex : String) : Int × Int :=
  let p := numParts lex
  if p.1 == 0 then (0, 0) else stripTens (lex.length + 1) p

def jsNumEq (a b : String) : Bool := canonNum a == canonNum b

/-- SameValueZero on the values this code can push into `types`: primitives
compare by value; arrays and objects compare by reference, and every stored
candidate here is a freshly parsed object, so those never compare equal. -/
def jsSameValueZero : Option JsVal → Option JsVal → Bool
  | none, none => true
  | some .jnull, some .jnull => true
  | some (.jbool a), some (.jbool b) => a == b
  | some (.jstr a), some (.jstr b) => a == b
  | some (.jnum a), some (.jnum b) => jsNumEq a b
  | _, _ => false

def jsIncludes (acc : List (Option JsVal)) (v : Option JsVal) : Bool :=
  acc.any (fun w => jsSameValueZero w v)

/-! ## `extractJSONLDSchema` (lines 355–373) -/

/-- One attempt of
`<script\s+type=["']application\/ld\+json["'][^>]*>([\s\S]*?)<\/script>`
(flags `gi`) at the current position. -/
def matchLdJsonAt (s : List Char) : Option (List Char × List Char) :=
  match dropLit true "<script".data s with
  | none => none
  | some r1 =>
    match r1 with
    | [] => none
    | c :: _ =>
      if !jsWs c then none
      else
        match dropLit true "type=".data (r1.dropWhile jsWs) with
        | none => none
        | some r2 =>
          match r2 with
          | [] => none
          | q1 :: r3 =>
            if !quoteChar q1 then none
            else
              match dropLit true "application/ld+json".data r3 with
              | none => none
              | some r4 =>
                match r4 with
                | [] => none
                | q2 :: r5 =>
                  if !quoteChar q2 then none
                  else
                    match r5.dropWhile (fun c => c != '>') with
                    | '>' :: r6 => splitUntilLit true "</script>".data r6
                    | _ => none

/-- Last-binding object lookup (`schema['@type']`; `JSON.parse` keeps the
last duplicate key). -/
def lookupLastField : List (String × JsVal) → String → Option JsVal
  | [], _ => none
  | (k, v) :: rest, key =>
    match lookupLastField rest key with
    | some r => some r
    | none => if k == key then some v else none

/-- Indexing `schema['@type'][0]`: `undefined` (`none`) on an empty array, the first
element otherwise; a non-array indexes to itself in the source (it is only
reached when `Array.isArray` is false). -/
def jsIndexZero : JsVal → Option JsVal
  | .jarr (x :: _) => some x
  | .jarr [] => none
  | v => some v

/-- The body of the `try` block for one ld+json block: parse the trimmed body
(`JSON.parse(match[1].trim())`), and if the parse succeeds and
`schema['@type']` is truthy, produce the value that would be pushed.  A parse
failure, a non-object (whose `['@type']` is `undefined`; on `null` the access
throws and is caught), a missing `@type`, and a falsy `@type` all contribute
nothing. -/
def blockTypeOf (body : List Char) : Option (Option JsVal) :=
  match jsonParseChars (jsTrimChars body) with
  | none => none
  | some v =>
    match v with
    | .jobj fields =>
      match lookupLastField fields "@type" with
      | some tv => if jsTruthy tv then some (jsIndexZero tv) else none
      | none => none
    | _ => none

/-- The scan loop of `extractJSONLDSchema`, with the source's
`if (!types.includes(type)) types.push(type)` accumulation. -/
def ldTypesLoop : Nat → List Char → List (Option JsVal) → List (Option JsVal)
  | 0, _, acc => acc
  | _ + 1, [], acc => acc
  | fuel + 1, c :: cs, acc =>
    match matchLdJsonAt (c :: cs) with
    | some (body, after) =>
      match blockTypeOf body with
      | some tv => ldTypesLoop fuel after (if jsIncludes acc tv then acc else acc ++ [tv])
      | none => ldTypesLoop fuel after acc
    | none => ldTypesLoop fuel cs acc

structure SchemaResult where
  found : Bool
  types : List (Option JsVal)

/-- Source `extractJSONLDSchema` (lines 355–373). -/
def extractJSONLDSchema (html : String) : SchemaResult :=
  let types := ldTypesLoop html.data.length html.data []
  { found := decide (0 < types.length), types := types }

/-- The ld+json block bodies of an html text, in scan order (used to state
the characterisation of `extractJSONLDSchema`). -/
def ldJsonBlocks : Nat → List Char → List (List Char)
  | 0, _ => []
  | _ + 1, [] => []
  | fuel + 1, c :: cs =>
    match matchLdJsonAt (c :: cs) with
    | some (body, after) => body :: ldJsonBlocks fuel after
    | none => ldJsonBlocks fuel cs

/-- Fold a list of candidate values into an accumulator with the
`includes`-guarded push. -/
def dedupPushJs (acc : List (Option JsVal)) (xs : List (Option JsVal)) :
    List (Option JsVal) :=
  xs.foldl (fun a v => if jsIncludes a v then a else a ++ [v]) acc

/-! ## `extractImportantMetaTags`, `runDetectors`, result assembly -/

/-- Source `extractImportantMetaTags` (lines 375–388). -/
def extractImportantMetaTags (html : String) : MetaTagsResult :=
  { basic :=
      { description := findAttrTag "<meta" "name=" "description" "content=" false html
        robots := findAttrTag "<meta" "name=" "robots" "content=" false html
        canonical := findAttrTag "<link" "rel=" "canonical" "href=" false html } }

/-- Coercion `x || null` on an optional string field: the empty string collapses to
`null`. -/
def jsOrNull : Option String → Option String
  | some s => if s.isEmpty then none else some s
  | none => none

structure InfraDetections where
  cms : List String
  ecommerce : Option String
  cdn : List String
  deriving Repr, DecidableEq

structure Detections where
  pageTitle : Option String
  analytics : AnalyticsFindings
  marketing : MarketingFindings
  infrastructure : InfraDetections
  seo : SeoFindings

/-- Source `runDetectors` (lines 134–169). -/
def runDetectors (html : String) (headers : List (String × String)) : Detections :=
  let combined := detectorCorpus html
  { pageTitle := extractPageTitle html
    analytics :=
      { ga4 := checkGA4 combined
        gtm := checkGTM combined
        microsoftClarity := checkMicrosoftClarity combined
        searchConsole := checkSearchConsole html
        seoPlugin := checkSEOPlugins html
        bingWebmaster := checkBingWebmaster html }
    marketing :=
      { crm := checkCRMPlatforms combined
        emailMarketing := checkEmailMarketingTools combined
        adPlatforms := (checkAdPlatforms combined).platforms
        pixelIds := (checkAdPlatforms combined).pixelIds
        conversionTools := checkConversionOptimizationTools combined
        widgets := checkWidgets combined }
    infrastructure :=
      { cms := checkCMS combined html
        ecommerce := checkEcommercePlatforms combined html
        cdn := checkCDNProviders combined headers }
    seo :=
      { hasSchema := (extractJSONLDSchema html).found
        schemaTypes := (extractJSONLDSchema html).types
        metaTags := extractImportantMetaTags html
        canonical := jsOrNull (extractImportantMetaTags html).basic.canonical
        robots := jsOrNull (extractImportantMetaTags html).basic.robots } }

/-- The pure part of the `result` assembly in `analyzeWebsite`
(lines 79–95): the detections plus `hosting` from the headers. -/
def buildResult (html : String) (headers : List (String × String))
    (domain : String) : DetectionResult :=
  let detections := runDetectors html headers
  { analytics := detections.analytics
    marketing := detections.marketing
    infrastructure :=
      { cms := detections.infrastructure.cms
        ecommerce := detections.infrastructure.ecommerce
        cdn := detections.infrastructure.cdn
        hosting := detectHostingFromHeaders headers domain }
    seo := detections.seo }

/-- Composition `classify` followed by `aggregate`: the full static pipeline from corpus
inputs to the derived summary. -/
def classifyAggregate (html : String) (headers : List (String × String))
    (domain : String) : Summary :=
  calculateSummary (buildResult html headers domain)

/-! ## Enhanced-detection merge (lines 98–123) -/

/-- The shape of `enhancedData` consumed by the merge step: an optional
platform-presence map and an optional per-platform id-list map (a `none`
value models a non-array entry, which `Array.isArray` filters out). -/
structure EnhancedData where
  pixels : Option (List (String × Bool))
  pixelIds : Option (List (String × Option (List String)))

/-- The `Object.entries(enhancedData.pixels).forEach` loop: append each found
platform not already present. -/
def mergePlatformsLoop (pixels : List (String × Bool)) (acc : List String) :
    List String :=
  pixels.foldl (fun acc pf => if pf.2 && !acc.contains pf.1 then acc ++ [pf.1] else acc)
    acc

/-- The `Object.entries(enhancedData.pixelIds).flatMap` expression: the
`platform: id` strings, in order, with non-array entries contributing
nothing. -/
def flattenPixelIds (entries : List (String × Option (List String))) : List String :=
  (entries.map (fun pi =>
    match pi.2 with
    | some ids => ids.map (fun id => pi.1 ++ ": " ++ id)
    | none => [])).flatten

/-- The merge of one enhancement payload into the marketing findings
(lines 104–119).  Platforms are pushed through an `includes` guard; pixel ids
are appended with no deduplication. -/
def mergeEnhanced (m : MarketingFindings) (e : EnhancedData) : MarketingFindings :=
  let m1 :=
    match e.pixels with
    | some pixels => { m with adPlatforms := mergePlatformsLoop pixels m.adPlatforms }
    | none => m
  match e.pixelIds with
  | some entries => { m1 with pixelIds := m1.pixelIds ++ flattenPixelIds entries }
  | none => m1

/-! ## Theorems -/

theorem isPrefixL_iff (pat s : List Char) :
    isPrefixL pat s = true ↔ ∃ r, s = pat ++ r := by
  induction pat generalizing s with
  | nil => simp [isPrefixL]
  | cons p ps ih =>
    cases s with
    | nil => simp [isPrefixL]
    | cons c cs =>
      simp only [isPrefixL, Bool.and_eq_true, beq_iff_eq, ih, List.cons_append,
        List.cons.injEq]
      constructor
      · rintro ⟨rfl, r, rfl⟩; exact ⟨r, rfl, rfl⟩
      · rintro ⟨r, rfl, rfl⟩; exact ⟨rfl, r, rfl⟩

theorem containsL_iff (pat s : List Char) :
    containsL pat s = true ↔ ∃ l r, s = l ++ pat ++ r := by
  induction s with
  | nil =>
    simp only [containsL, isPrefixL_iff]
    constructor
    · rintro ⟨r, h⟩; exact ⟨[], r, by simpa using h⟩
    · rintro ⟨l, r, h⟩
      rcases List.append_eq_nil.mp (List.append_eq_nil.mp h.symm).1 with ⟨h1, h2⟩
      exact ⟨r, by simp [h2, (List.append_eq_nil.mp h.symm).2.symm]⟩
  | cons c cs ih =>
    simp only [containsL, Bool.or_eq_true, isPrefixL_iff, ih]
    constructor
    · rintro (⟨r, h⟩ | ⟨l, r, h⟩)
      · exact ⟨[], r, by simpa using h⟩
      · exact ⟨c :: l, r, by simp [h]⟩
    · rintro ⟨l, r, h⟩
      cases l with
      | nil => exact Or.inl ⟨r, by simpa using h⟩
      | cons x xs =>
        right
        refine ⟨xs, r, ?_⟩
        have h2 := h
        simp only [List.cons_append, List.cons.injEq] at h2
        simpa using h2.2

/-- A substring of the tail is a substring of the whole list. -/
theorem containsL_of_tail {pat : List Char} {c : Char} {cs : List Char}
    (h : containsL pat cs = true) : containsL pat (c :: cs) = true := by
  simp [containsL, h]

/-- A string decomposition exhibiting `pat` as a substring makes the
case-insensitive test succeed. -/
theorem icontainsStr_of_decomp {s pat : String}
    (h : ∃ l r : String, s = l ++ pat ++ r) : icontainsStr s pat = true := by
  obtain ⟨l, r, rfl⟩ := h
  unfold icontainsStr
  rw [containsL_iff]
  refine ⟨lowerChars l.data, lowerChars r.data, ?_⟩
  show lowerChars (l.data ++ pat.data ++ r.data) = _
  simp [lowerChars]

/-- The `includes`-guarded push loop produces a duplicate-free list. -/
theorem dedupPush_nodup (raw : List String) : (dedupPush raw).Nodup := by
  suffices h : ∀ acc : List String, acc.Nodup →
      (raw.foldl (fun acc id => if acc.contains id then acc else acc ++ [id]) acc).Nodup by
    exact h [] List.nodup_nil
  induction raw with
  | nil => intro acc hacc; exact hacc
  | cons x xs ih =>
    intro acc hacc
    show (xs.foldl _ (if acc.contains x then acc else acc ++ [x])).Nodup
    by_cases hx : acc.contains x = true
    · rw [if_pos hx]; exact ih acc hacc
    · rw [if_neg hx]
      have hmem : x ∉ acc := fun hm => hx (List.elem_iff.mpr hm)
      exact ih (acc ++ [x]) (by simp [List.nodup_append, hacc, hmem])

/-! ### C1: summary aggregation -/

/-- C1: for every findings object, the derived summary counts exactly: the
number of the 6 analytics booleans that are true; the summed sizes of the
crm, emailMarketing, adPlatforms, conversionTools and widgets lists (pixel
ids not counted); the CMS list size plus 1 for an identified (truthy)
e-commerce platform plus the CDN list size (hosting contributing nothing);
1 for structured data plus 1 for a present (truthy) meta description
(canonical and robots contributing nothing); and the total is the sum of the
four group counts.  The right-hand sides never consult
`r.infrastructure.hosting`, `r.marketing.pixelIds`, `r.seo.canonical` or
`r.seo.robots`. -/
theorem claim1_summary_formula (r : DetectionResult) :
    (calculateSummary r).categories.analytics =
      List.count true
        [r.analytics.ga4.found, r.analytics.gtm.found,
         r.analytics.microsoftClarity.found, r.analytics.searchConsole.found,
         r.analytics.seoPlugin.found, r.analytics.bingWebmaster.found] ∧
    (calculateSummary r).categories.marketing =
      r.marketing.crm.length + r.marketing.emailMarketing.length +
      r.marketing.adPlatforms.length + r.marketing.conversionTools.length +
      r.marketing.widgets.length ∧
    (calculateSummary r).categories.infrastructure =
      r.infrastructure.cms.length +
      (if jsTruthyOptStr r.infrastructure.ecommerce then 1 else 0) +
      r.infrastructure.cdn.length ∧
    (calculateSummary r).categories.seo =
      (if r.seo.hasSchema then 1 else 0) +
      (if jsTruthyOptStr r.seo.metaTags.basic.description then 1 else 0) ∧
    (calculateSummary r).totalToolsFound =
      (calculateSummary r).categories.analytics +
      (calculateSummary r).categories.marketing +
      (calculateSummary r).categories.infrastructure +
      (calculateSummary r).categories.seo := by
  refine ⟨?_, rfl, rfl, rfl, rfl⟩
  obtain ⟨⟨⟨f1, _⟩, ⟨f2, _⟩, ⟨f3, _⟩, ⟨f4, _⟩, ⟨f5, _⟩, ⟨f6, _⟩⟩, _, _, _⟩ := r
  cases f1 <;> cases f2 <;> cases f3 <;> cases f4 <;> cases f5 <;> cases f6 <;> rfl

/-! ### C6: case sensitivity of the rules -/

/-- C6 counterexample: the claim says uppercasing the corpus never changes a
rule's `found` result, but the Microsoft Clarity presence pattern
`/clarity\.ms/` carries no `i` flag: the lowercase marker is found and its
uppercasing is not. -/
theorem claim6_counterexample :
    toUpperStr "clarity.ms" = "CLARITY.MS" ∧
    (checkMicrosoftClarity "clarity.ms").found = true ∧
    (checkMicrosoftClarity (toUpperStr "clarity.ms")).found = false := by
  refine ⟨rfl, rfl, ?_⟩; decide

/-- C6 amended: the list-valued rules and the identifier-extraction patterns
are case-insensitive (`gi` flags), but the GA4, GTM and Microsoft Clarity
presence tests are flagless and case-sensitive: uppercasing a corpus holding
their lowercase markers flips `found` from true to false, while e.g. the CMS
WordPress rule and the CRM HubSpot rule match either case, and the GA4 id
extractor captures a lowercase identifier. -/
theorem claim6_amended :
    (checkGA4 "googletagmanager.com/gtag/js").found = true ∧
    (checkGA4 (toUpperStr "googletagmanager.com/gtag/js")).found = false ∧
    (checkGTM "googletagmanager.com/gtm.js").found = true ∧
    (checkGTM (toUpperStr "googletagmanager.com/gtm.js")).found = false ∧
    (checkMicrosoftClarity "clarity.ms").found = true ∧
    (checkMicrosoftClarity (toUpperStr "clarity.ms")).found = false ∧
    checkCMS "wp-content/" "" = ["WordPress"] ∧
    checkCMS (toUpperStr "wp-content/") "" = ["WordPress"] ∧
    checkCRMPlatforms "hubspot" = ["HubSpot"] ∧
    checkCRMPlatforms (toUpperStr "hubspot") = ["HubSpot"] ∧
    (checkGA4 "'g-abcdefgh12'").measurementIds = ["g-abcdefgh12"] := by
  decide

/-! ### C2: hosting decision list -/

/-- C2: hosting detection is an ordered decision list over specific header
keys returning the first matching label: any truthy `cf-ray` value wins with
"Cloudflare" whatever else the headers hold; when no key is truthy and the
lowercased server banner holds neither `nginx` nor `apache`, the sentinel
"Unknown" is returned; the two spec scenarios
(`{"cf-ray": "abc123"}` and `{}`) evaluate accordingly, without error. -/
theorem claim2_hosting_decision (headers : List (String × String)) (domain : String)
    (hcf : jsTruthyOptStr (getHeader headers "cf-ray") = false)
    (hv : jsTruthyOptStr (getHeader headers "x-vercel-id") = false)
    (hn : jsTruthyOptStr (getHeader headers "x-nf-request-id") = false)
    (hg : jsTruthyOptStr (getHeader headers "x-github-request") = false)
    (hng : containsStr (toLowerStr ((getHeader headers "server").getD "")) "nginx" = false)
    (hap : containsStr (toLowerStr ((getHeader headers "server").getD "")) "apache" = false) :
    detectHostingFromHeaders headers domain = "Unknown" ∧
    (∀ (hs : List (String × String)) (d v : String),
        getHeader hs "cf-ray" = some v → v ≠ "" →
        detectHostingFromHeaders hs d = "Cloudflare") ∧
    detectHostingFromHeaders [("cf-ray", "abc123")] domain = "Cloudflare" ∧
    detectHostingFromHeaders [] domain = "Unknown" := by
  refine ⟨?_, ?_, rfl, rfl⟩
  · unfold detectHostingFromHeaders
    simp [hcf, hv, hn, hg, hng, hap]
  · intro hs d v hv2 hne
    unfold detectHostingFromHeaders
    have : jsTruthyOptStr (getHeader hs "cf-ray") = true := by
      rw [hv2]
      simpa [jsTruthyOptStr] using fun he => hne ((String.isEmpty_iff v).mp he)
    simp [this]

theorem claim2_hosting_decision_witness :
    detectHostingFromHeaders [("x-powered-by", "PHP")] "example.com" = "Unknown" ∧
    detectHostingFromHeaders [("cf-ray", "abc123")] "example.com" = "Cloudflare" ∧
    detectHostingFromHeaders [] "example.com" = "Unknown" := by
  have h := claim2_hosting_decision [("x-powered-by", "PHP")] "example.com"
    (by decide) (by decide) (by decide) (by decide) (by decide) (by decide)
  exact ⟨h.1, h.2.2.1, h.2.2.2⟩

/-! ### C5: enrichment merge -/

/-- Anything already in the accumulator survives the platform-merge loop. -/
theorem mem_mergePlatformsLoop (pixels : List (String × Bool))
    (acc : List String) {x : String} (hx : x ∈ acc) :
    x ∈ mergePlatformsLoop pixels acc := by
  induction pixels generalizing acc with
  | nil => exact hx
  | cons p ps ih =>
    show x ∈ ps.foldl _ (if p.2 && !acc.contains p.1 then acc ++ [p.1] else acc)
    by_cases hc : (p.2 && !acc.contains p.1) = true
    · rw [if_pos hc]; exact ih _ (List.mem_append_left _ hx)
    · rw [if_neg hc]; exact ih _ hx

/-- Every platform reported found ends up in the merged list. -/
theorem mem_mergePlatformsLoop_of_found (pixels : List (String × Bool))
    (acc : List String) {x : String} (hx : (x, true) ∈ pixels) :
    x ∈ mergePlatformsLoop pixels acc := by
  induction pixels generalizing acc with
  | nil => cases hx
  | cons p ps ih =>
    show x ∈ ps.foldl _ (if p.2 && !acc.contains p.1 then acc ++ [p.1] else acc)
    rcases List.mem_cons.mp hx with heq | htail
    · subst heq
      by_cases hc : (true && !acc.contains x) = true
      · rw [if_pos hc]
        exact mem_mergePlatformsLoop ps _ (List.mem_append_right _ (List.mem_singleton.mpr rfl))
      · rw [if_neg hc]
        have hcx : acc.contains x = true := by
          cases hcx2 : acc.contains x with
          | true => rfl
          | false =>
            exact absurd (show (true && !acc.contains x) = true by rw [hcx2]; rfl) hc
        exact mem_mergePlatformsLoop ps _ (List.elem_iff.mp hcx)
    · exact ih _ htail

/-- If every found platform is already present, the merge loop is the
identity. -/
theorem mergePlatformsLoop_eq_self (pixels : List (String × Bool))
    (acc : List String) (h : ∀ x, (x, true) ∈ pixels → x ∈ acc) :
    mergePlatformsLoop pixels acc = acc := by
  induction pixels generalizing acc with
  | nil => rfl
  | cons p ps ih =>
    show ps.foldl _ (if p.2 && !acc.contains p.1 then acc ++ [p.1] else acc) = acc
    have hc : (p.2 && !acc.contains p.1) = false := by
      cases hp2 : p.2 with
      | false => simp
      | true =>
        have hmem : p.1 ∈ acc := h p.1 (by rw [← hp2]; exact List.mem_cons_self _ _)
        have hc2 : acc.contains p.1 = true := List.elem_iff.mpr hmem
        rw [hc2]; rfl
    rw [hc]
    show ps.foldl _ (if False then acc ++ [p.1] else acc) = acc
    rw [if_neg (fun h => h)]
    exact ih acc (fun x hx => h x (List.mem_cons_of_mem _ hx))

/-- Merging the same platform payload a second time changes nothing. -/
theorem mergePlatformsLoop_idem (pixels : List (String × Bool)) (acc : List String) :
    mergePlatformsLoop pixels (mergePlatformsLoop pixels acc) =
      mergePlatformsLoop pixels acc :=
  mergePlatformsLoop_eq_self pixels _ (fun _ hx => mem_mergePlatformsLoop_of_found pixels acc hx)

/-- C5 counterexample: the claim promises that merging the same enrichment
payload twice equals merging it once, with identifiers appended only when not
already present — but the source appends `pixelIds` with no membership check,
so a payload carrying one pixel id duplicates it on the second merge. -/
theorem claim5_counterexample :
    mergeEnhanced
        (mergeEnhanced
          { crm := [], emailMarketing := [], adPlatforms := [], pixelIds := [],
            conversionTools := [], widgets := [] }
          { pixels := some [("ga4", true)], pixelIds := some [("Facebook", some ["123"])] })
        { pixels := some [("ga4", true)], pixelIds := some [("Facebook", some ["123"])] } ≠
      mergeEnhanced
        { crm := [], emailMarketing := [], adPlatforms := [], pixelIds := [],
          conversionTools := [], widgets := [] }
        { pixels := some [("ga4", true)], pixelIds := some [("Facebook", some ["123"])] } := by
  decide

/-- C5 amended: the platform half of the merge contract holds — reported
platforms are appended through an `includes` guard, so re-merging adds no
duplicate platform names — but pixel identifiers are appended with no
deduplication, so merging twice equals merging once exactly when the payload
contributes no pixel-identifier strings. -/
theorem claim5_amended (m : MarketingFindings) (e : EnhancedData)
    (hids : (match e.pixelIds with
             | some entries => flattenPixelIds entries
             | none => []) = []) :
    mergeEnhanced (mergeEnhanced m e) e = mergeEnhanced m e := by
  unfold mergeEnhanced
  cases hpx : e.pixels with
  | none =>
    cases hpi : e.pixelIds with
    | none => rfl
    | some entries =>
      rw [hpi] at hids
      have hflat : flattenPixelIds entries = [] := hids
      simp [hflat]
  | some pixels =>
    cases hpi : e.pixelIds with
    | none => simp [mergePlatformsLoop_idem]
    | some entries =>
      rw [hpi] at hids
      have hflat : flattenPixelIds entries = [] := hids
      simp [hflat, mergePlatformsLoop_idem]

theorem claim5_amended_witness :
    mergeEnhanced
        (mergeEnhanced
          { crm := [], emailMarketing := [], adPlatforms := [], pixelIds := [],
            conversionTools := [], widgets := [] }
          { pixels := some [("ga4", true), ("facebook", false)], pixelIds := none })
        { pixels := some [("ga4", true), ("facebook", false)], pixelIds := none } =
      mergeEnhanced
        { crm := [], emailMarketing := [], adPlatforms := [], pixelIds := [],
          conversionTools := [], widgets := [] }
        { pixels := some [("ga4", true), ("facebook", false)], pixelIds := none } :=
  claim5_amended _ _ rfl

/-! ### C7: corpus construction -/

/-- A successful case-insensitive literal consumption means the lowered input
starts with the lowered literal. -/
theorem dropLit_true_lower {lit : List Char} : ∀ {s r : List Char},
    dropLit true lit s = some r → lowerChars s = lowerChars lit ++ lowerChars r := by
  induction lit with
  | nil =>
    intro s r h
    have : s = r := by simpa [dropLit] using h
    simp [this, lowerChars]
  | cons p ps ih =>
    intro s r h
    cases s with
    | nil => cases h
    | cons c cs =>
      have h' : (if (p.toLower == c.toLower) = true then dropLit true ps cs else none) =
          some r := h
      by_cases he : (p.toLower == c.toLower) = true
      · rw [if_pos he] at h'
        have := ih h'
        simp only [lowerChars, List.map_cons] at this ⊢
        rw [List.cons_append]
        exact List.cons_eq_cons.mpr ⟨(beq_iff_eq.mp he).symm, this⟩
      · rw [if_neg he] at h'
        cases h'

/-- A prefix occurrence is a substring occurrence. -/
theorem containsL_of_isPrefix {pat s : List Char} (h : isPrefixL pat s = true) :
    containsL pat s = true := by
  cases s with
  | nil => simpa [containsL] using h
  | cons c cs => simp [containsL, h]

/-- If the lowered text nowhere holds `<script`, the script scan collects
nothing. -/
theorem scanScriptsAux_eq_nil (fuel : Nat) (s : List Char)
    (h : containsL (lowerChars "<script".data) (lowerChars s) = false) :
    scanScriptsAux fuel s = [] := by
  induction fuel generalizing s with
  | zero => rfl
  | succ fuel ih =>
    cases s with
    | nil => rfl
    | cons c cs =>
      cases hm : matchScriptAt (c :: cs) with
      | some pr =>
        exfalso
        unfold matchScriptAt at hm
        cases hd : dropLit true "<script".data (c :: cs) with
        | none => rw [hd] at hm; cases hm
        | some rest =>
          have hpre : isPrefixL (lowerChars "<script".data) (lowerChars (c :: cs)) = true := by
            rw [isPrefixL_iff]
            exact ⟨lowerChars rest, dropLit_true_lower hd⟩
          rw [containsL_of_isPrefix hpre] at h
          cases h
      | none =>
        have hred : scanScriptsAux (fuel + 1) (c :: cs) = scanScriptsAux fuel cs := by
          simp [scanScriptsAux, hm]
        rw [hred]
        apply ih
        have hsplit : containsL (lowerChars "<script".data) (lowerChars (c :: cs)) =
            (isPrefixL (lowerChars "<script".data) (lowerChars (c :: cs)) ||
             containsL (lowerChars "<script".data) (lowerChars cs)) := rfl
        rw [hsplit] at h
        exact (Bool.or_eq_false_iff.mp h).2

/-- C7 counterexample: the claim says that with no `<script>` tags the corpus
equals the raw HTML exactly, but `runDetectors` builds
`` `${html} ${scriptContents}` ``, leaving a trailing space: on the
script-free input `"x"` the corpus is `"x "`. -/
theorem claim7_counterexample :
    icontainsStr "x" "<script" = false ∧
    detectorCorpus "x" ≠ "x" ∧
    detectorCorpus "x" = "x " := by
  refine ⟨by decide, ?_, ?_⟩ <;> decide

/-- C7 amended: the corpus is the HTML, a space, and the concatenation of one
space-wrapped body per `<script>` block; when the HTML (case-insensitively)
holds no `<script` opening at all, the script part is empty, so the corpus is
exactly the raw HTML followed by a single space (not the raw HTML itself). -/
theorem claim7_amended (html : String)
    (h : icontainsStr html "<script" = false) :
    detectorCorpus html = html ++ " " := by
  unfold detectorCorpus extractScriptContents
  rw [scanScriptsAux_eq_nil _ _ h]
  exact String.append_empty _

theorem claim7_amended_witness :
    icontainsStr "x" "<script" = false ∧ detectorCorpus "x" = "x" ++ " " :=
  ⟨by decide, claim7_amended "x" (by decide)⟩

/-! ### C3: structured-data extraction -/

/-- The scan loop equals: collect the block bodies, keep the pushed value of
each block that yields one (`filterMap`), and fold them through the
`includes`-guarded push. -/
theorem ldTypesLoop_characterisation (fuel : Nat) (s : List Char)
    (acc : List (Option JsVal)) :
    ldTypesLoop fuel s acc =
      dedupPushJs acc (List.filterMap blockTypeOf (ldJsonBlocks fuel s)) := by
  induction fuel generalizing s acc with
  | zero => rfl
  | succ fuel ih =>
    cases s with
    | nil => rfl
    | cons c cs =>
      cases hm : matchLdJsonAt (c :: cs) with
      | some pr =>
        obtain ⟨body, after⟩ := pr
        have hl : ldTypesLoop (fuel + 1) (c :: cs) acc =
            (match blockTypeOf body with
             | some tv =>
               ldTypesLoop fuel after (if jsIncludes acc tv then acc else acc ++ [tv])
             | none => ldTypesLoop fuel after acc) := by
          simp [ldTypesLoop, hm]
        have hb : ldJsonBlocks (fuel + 1) (c :: cs) = body :: ldJsonBlocks fuel after := by
          simp [ldJsonBlocks, hm]
        rw [hl, hb]
        cases hbt : blockTypeOf body with
        | some tv => simp [List.filterMap_cons, hbt, ih, dedupPushJs]
        | none => simp [List.filterMap_cons, hbt, ih]
      | none =>
        have hl : ldTypesLoop (fuel + 1) (c :: cs) acc = ldTypesLoop fuel cs acc := by
          simp [ldTypesLoop, hm]
        have hb : ldJsonBlocks (fuel + 1) (c :: cs) = ldJsonBlocks fuel cs := by
          simp [ldJsonBlocks, hm]
        rw [hl, hb, ih]

/-- The `includes`-guarded push keeps the accumulated values pairwise
distinct under SameValueZero. -/
theorem pairwise_dedupPushJs (xs acc : List (Option JsVal))
    (h : acc.Pairwise (fun a b => jsSameValueZero a b = false)) :
    (dedupPushJs acc xs).Pairwise (fun a b => jsSameValueZero a b = false) := by
  induction xs generalizing acc with
  | nil => exact h
  | cons v vs ih =>
    show (dedupPushJs (if jsIncludes acc v then acc else acc ++ [v]) vs).Pairwise _
    by_cases hin : jsIncludes acc v = true
    · rw [if_pos hin]; exact ih acc h
    · rw [if_neg hin]
      apply ih
      rw [List.pairwise_append]
      refine ⟨h, List.pairwise_singleton _ _, ?_⟩
      intro a ha b hb
      rw [List.mem_singleton] at hb
      subst hb
      cases hsv : jsSameValueZero a b with
      | false => rfl
      | true =>
        exact absurd (List.any_eq_true.mpr ⟨a, ha, hsv⟩)
          (by simpa [jsIncludes] using hin)

set_option maxRecDepth 100000 in
/-- C3: structured-data detection parses the body of every
`<script type="application/ld+json">` block; a block whose (trimmed) body
fails to parse is skipped — the collected list equals the `includes`-guarded
fold of the per-block values, where a failed parse contributes nothing
(`blockTypeOf` is `none`) — the result list is deduplicated (pairwise
distinct under SameValueZero) in insertion order, and `found` holds iff the
list is non-empty.  Concretely, an html with an `Organization` block and a
truncated block yields exactly the one type without error, and an html with
only the truncated block yields `found = false` and no types. -/
theorem claim3_jsonld_schema (html : String) :
    ((extractJSONLDSchema html).found = true ↔ (extractJSONLDSchema html).types ≠ []) ∧
    (extractJSONLDSchema html).types =
      dedupPushJs [] (List.filterMap blockTypeOf (ldJsonBlocks html.data.length html.data)) ∧
    (extractJSONLDSchema html).types.Pairwise (fun a b => jsSameValueZero a b = false) ∧
    blockTypeOf "\x7b\"@type\":".data = none ∧
    (extractJSONLDSchema ("<script type=\"application/ld+json\">\x7b\"@type\":\"Organization\"\x7d</script>" ++
        "<script type=\"application/ld+json\">\x7b\"@type\":</script>")).found = true ∧
    (extractJSONLDSchema ("<script type=\"application/ld+json\">\x7b\"@type\":\"Organization\"\x7d</script>" ++
        "<script type=\"application/ld+json\">\x7b\"@type\":</script>")).types =
      [some (JsVal.jstr "Organization")] ∧
    (extractJSONLDSchema "<script type=\"application/ld+json\">\x7b\"@type\":</script>").found =
      false ∧
    (extractJSONLDSchema "<script type=\"application/ld+json\">\x7b\"@type\":</script>").types =
      [] := by
  refine ⟨?_, ldTypesLoop_characterisation _ _ [], ?_, rfl, rfl, rfl, rfl, rfl⟩
  · simp [extractJSONLDSchema, List.length_pos]
  · have hch := ldTypesLoop_characterisation html.data.length html.data []
    show (ldTypesLoop html.data.length html.data []).Pairwise _
    rw [hch]
    exact pairwise_dedupPushJs _ [] List.Pairwise.nil

/-! ### C4: bounded identifier extraction -/

/-- C4 counterexample: in `'G-AAAAAAAA,G-BBBBBBBB'` the identifier
`G-BBBBBBBB` is flanked (comma before, quote after), yet it is extracted zero
times — not once as the claim requires — because the global regex consumed
the comma as the trailing boundary of the `G-AAAAAAAA` match and resumes
after it. -/
theorem claim4_counterexample :
    ("'G-AAAAAAAA," ++ "G-BBBBBBBB" ++ "'" : String) = "'G-AAAAAAAA,G-BBBBBBBB'" ∧
    ga4PreBoundary ',' = true ∧
    ga4PostBoundary '\'' = true ∧
    (checkGA4 "'G-AAAAAAAA,G-BBBBBBBB'").measurementIds = ["G-AAAAAAAA"] ∧
    "G-BBBBBBBB" ∉ (checkGA4 "'G-AAAAAAAA,G-BBBBBBBB'").measurementIds := by
  decide

theorem takeWhile_append_all {p : Char → Bool} (ds t : List Char)
    (h : ds.all p = true) : (ds ++ t).takeWhile p = ds ++ t.takeWhile p := by
  induction ds with
  | nil => rfl
  | cons d dsx ih =>
    have hsplit : p d = true ∧ dsx.all p = true := by
      simpa [List.all_cons] using h
    simp [List.takeWhile_cons, hsplit.1, ih hsplit.2]

/-- The presence scan finds a `G-…` token at any position of the text. -/
theorem hasGA4TokenAux_of (l rest : List Char) : ∀ fuel : Nat,
    l.length + 1 ≤ fuel → ga4TokenAt rest = true →
    hasGA4TokenAux fuel (l ++ rest) = true := by
  induction l with
  | nil =>
    intro fuel hf h
    cases fuel with
    | zero => omega
    | succ f =>
      cases rest with
      | nil => cases h
      | cons c cs => simp [hasGA4TokenAux, h]
  | cons x xs ih =>
    intro fuel hf h
    cases fuel with
    | zero => omega
    | succ f =>
      show hasGA4TokenAux (f + 1) (x :: (xs ++ rest)) = true
      have hrec := ih f (by simp at hf; omega) h
      simp [hasGA4TokenAux, hrec]

/-- C4 amended: the extracted identifier list is always deduplicated (each
identifier appears at most once, in first-seen order); any corpus holding a
`G-` token with at least 8 `[A-Z0-9]` characters anywhere sets
`found = true`; and the spec scenario extracts exactly its identifier.  (The
"exactly once" guarantee of the original claim fails when the sole preceding
boundary character was consumed by the previous match — see the
counterexample.) -/
theorem claim4_amended (content : String)
    (h : ∃ l r : String, ∃ ds : List Char,
        content = l ++ String.mk ('G' :: '-' :: ds) ++ r ∧
        8 ≤ ds.length ∧ ds.all ga4UpAlnum = true) :
    (checkGA4 content).found = true ∧
    (checkGA4 content).measurementIds.Nodup ∧
    checkGA4 "<script>gtag('config','G-ABC12345X')</script>" =
      { found := true, measurementIds := ["G-ABC12345X"] } := by
  refine ⟨?_, dedupPush_nodup _, by decide⟩
  obtain ⟨l, r, ds, hcontent, hlen, hall⟩ := h
  have hdata : content.data = l.data ++ ('G' :: '-' :: (ds ++ r.data)) := by
    rw [hcontent]
    show (l.data ++ ('G' :: '-' :: ds)) ++ r.data = _
    simp
  have htok : ga4TokenAt ('G' :: '-' :: (ds ++ r.data)) = true := by
    show (('G' : Char) == 'G' && (('-' : Char) == '-') &&
      decide (8 ≤ ((ds ++ r.data).takeWhile ga4UpAlnum).length)) = true
    rw [takeWhile_append_all ds _ hall]
    simp only [List.length_append]
    have : 8 ≤ ds.length + (r.data.takeWhile ga4UpAlnum).length := by omega
    simp [this]
  have hfound : hasGA4Token content.data = true := by
    unfold hasGA4Token
    rw [hdata]
    apply hasGA4TokenAux_of l.data _ _ _ htok
    rw [List.length_append]
    omega
  simp [checkGA4, hfound]

theorem claim4_amended_witness :
    (checkGA4 "<script>gtag('config','G-ABC12345X')</script>").found = true ∧
    checkGA4 "<script>gtag('config','G-ABC12345X')</script>" =
      { found := true, measurementIds := ["G-ABC12345X"] } := by
  have h := claim4_amended "<script>gtag('config','G-ABC12345X')</script>"
    ⟨"<script>gtag('config','", "')</script>", "ABC12345X".data, by decide, by decide,
      by decide⟩
  exact ⟨h.1, h.2.2⟩

/-! ### C8: CMS and e-commerce scenario -/

/-- C8 counterexample: the claim demands CMS = `["WordPress"]` for *every*
corpus holding `wp-content/` and `cdn.shopify.com`, but a corpus that also
holds another CMS marker (`webflow.js`) classifies to
`["WordPress", "Webflow"]`. -/
theorem claim8_counterexample :
    ("" ++ "wp-content/" ++ " cdn.shopify.com webflow.js" : String) =
      "wp-content/ cdn.shopify.com webflow.js" ∧
    ("wp-content/ " ++ "cdn.shopify.com" ++ " webflow.js" : String) =
      "wp-content/ cdn.shopify.com webflow.js" ∧
    checkCMS "wp-content/ cdn.shopify.com webflow.js" "" = ["WordPress", "Webflow"] ∧
    checkCMS "wp-content/ cdn.shopify.com webflow.js" "" ≠ ["WordPress"] := by
  decide

/-- C8 amended: every corpus holding both substrings yields a CMS list
containing "WordPress" (exactly `["WordPress"]` when no other CMS rule
matches, as in the spec scenario) and e-commerce `"Shopify"` — the Shopify
rule is first in the ordered decision list, so it wins no matter what else
matches; and when none of the e-commerce rules matches, no platform is
returned. -/
theorem claim8_amended (corpus html : String)
    (hwp : ∃ l r : String, corpus = l ++ "wp-content/" ++ r)
    (hsh : ∃ l r : String, corpus = l ++ "cdn.shopify.com" ++ r) :
    "WordPress" ∈ checkCMS corpus html ∧
    checkEcommercePlatforms corpus html = some "Shopify" ∧
    checkCMS "wp-content/ cdn.shopify.com" "" = ["WordPress"] ∧
    checkEcommercePlatforms "wp-content/ cdn.shopify.com" "" = some "Shopify" ∧
    (∀ c h2 : String,
        icontainsStr c "cdn.shopify.com" = false →
        icontainsStr c "myshopify.com" = false →
        icontainsStr c "woocommerce" = false →
        icontainsStr c "magento" = false →
        icontainsStr c "bigcommerce.com" = false →
        checkEcommercePlatforms c h2 = none) := by
  have h1 : icontainsStr corpus "wp-content/" = true := icontainsStr_of_decomp hwp
  have h2 : icontainsStr corpus "cdn.shopify.com" = true := icontainsStr_of_decomp hsh
  refine ⟨?_, ?_, by decide, by decide, ?_⟩
  · simp [checkCMS, h1]
  · simp [checkEcommercePlatforms, h2]
  · intro c h2' ha hb hc hd he
    simp [checkEcommercePlatforms, ha, hb, hc, hd, he]

theorem claim8_amended_witness :
    "WordPress" ∈ checkCMS "wp-content/ cdn.shopify.com" "" ∧
    checkEcommercePlatforms "wp-content/ cdn.shopify.com" "" = some "Shopify" := by
  have h := claim8_amended "wp-content/ cdn.shopify.com" ""
    ⟨"", " cdn.shopify.com", by decide⟩ ⟨"wp-content/ ", "", by decide⟩
  exact ⟨h.1, h.2.1⟩

/-! ### C9: determinism of classify + aggregate -/

/-- C9: classification followed by summary aggregation is a pure function of
the (html, headers, domain) inputs: on equal inputs two runs agree.  The
embedding is stateless by construction — faithfully so, since every regex
literal in the source is created afresh inside its function, leaving no
`lastIndex` state across calls. -/
theorem claim9_deterministic (html1 html2 : String)
    (hs1 hs2 : List (String × String)) (d1 d2 : String)
    (hh : html1 = html2) (hheaders : hs1 = hs2) (hd : d1 = d2) :
    classifyAggregate html1 hs1 d1 = classifyAggregate html2 hs2 d2 := by
  subst hh hheaders hd; rfl

theorem claim9_deterministic_witness :
    classifyAggregate "" [] "" = classifyAggregate "" [] "" :=
  claim9_deterministic "" "" [] [] "" "" rfl rfl rfl

/-! ### C10: found without identifiers -/

/-- C10: GA4 `found = true` does not imply a non-empty identifier list: in
`xG-ABCDEFGH12` the token has no boundary before it (it is embedded after
`x`), so the bounded extractor captures nothing, while the unbounded presence
test `/G-[A-Z0-9]{8,12}/` still fires. -/
theorem claim10_found_without_ids :
    ("x" ++ "G-ABCDEFGH12" : String) = "xG-ABCDEFGH12" ∧
    (checkGA4 "xG-ABCDEFGH12").found = true ∧
    (checkGA4 "xG-ABCDEFGH12").measurementIds = [] := by
  decide


end ScriptDetector
